import Mathlib

/-!
Verification of the ADB / Fastboot host protocol implementation
(`adb_protocol.py`, `filesync_protocol.py`, `fastboot.py`, `adb_commands.py`,
`common.py`) against its natural-language specification.

Bytes are modelled as `List Nat` (each element an octet value).  Machine
integers are `Nat` with explicit `% 2^32` / mask arithmetic where the source
wraps.  The transport is modelled as a flat byte stream (a `List Nat`) for the
low-level reader, and as scripted message/response lists for the higher
layers; writes performed by the code are collected into explicit traces so
that "no traffic happened" is a statement about a list being empty.
-/

/-- Errors raised by the ADB/fastboot layers.  Each constructor corresponds to
one Python exception class. `readFailed v` is `usb_exceptions.ReadFailedError`
wrapping a libusb error of numeric value `v` (libusb timeout is `-7`);
`tcpTimeout` is `usb_exceptions.TcpTimeoutException`, raised by
`TcpHandle.BulkRead` on timeout; `valueError` stands for Python's built-in
`ValueError` (raised by `AdbMessage.Unpack` on a malformed header). -/
inductive AdbExn where
  | valueError
  | invalidCommand
  | invalidResponse
  | invalidChecksum
  | interleavedData
  | adbCommandFailure
  | deviceAuth
  | readFailed (usbErrorValue : Int)
  | tcpTimeout
  deriving DecidableEq, Repr

/-- `struct.pack('<I', n)` : the four little-endian bytes of a 32-bit word.
(`struct.pack` raises for `n ≥ 2^32`; theorems that need faithfulness carry
the bound as a hypothesis.) -/
def le32 (n : Nat) : List Nat :=
  [n % 256, n / 256 % 256, n / 65536 % 256, n / 16777216 % 256]

/-- Little-endian decoding of a byte list: `sum (b_i << (i*8))`.  This is both
`struct.unpack('<I', ·)` on 4-byte lists and the formula used by
`MakeWireIDs` to turn a 4-character command tag into its wire id. -/
def decLE (bs : List Nat) : Nat :=
  bs.foldr (fun b acc => b + 256 * acc) 0

theorem le32_length (n : Nat) : (le32 n).length = 4 := rfl

theorem decLE_le32 (n : Nat) (h : n < 4294967296) : decLE (le32 n) = n := by
  simp only [le32, decLE, List.foldr]
  omega

/-- The seven ADB command tags (`AdbMessage.ids`).  `OPEN` is spelled `opn`
because `open` is a Lean keyword. -/
inductive Cmd where
  | sync
  | cnxn
  | auth
  | opn
  | okay
  | clse
  | wrte
  deriving DecidableEq, Repr

/-- ASCII bytes of each four-character command tag. -/
def Cmd.tag : Cmd → List Nat
  | .sync => [83, 89, 78, 67]
  | .cnxn => [67, 78, 88, 78]
  | .auth => [65, 85, 84, 72]
  | .opn  => [79, 80, 69, 78]
  | .okay => [79, 75, 65, 89]
  | .clse => [67, 76, 83, 69]
  | .wrte => [87, 82, 84, 69]

/-- `MakeWireIDs` forward map: tag to little-endian 32-bit wire id. -/
def cmdWire (c : Cmd) : Nat := decLE c.tag

def cmdList : List Cmd := [.sync, .cnxn, .auth, .opn, .okay, .clse, .wrte]

/-- `AdbMessage.constants.get cmd` : reverse lookup from wire id to tag. -/
def wireToCmd (n : Nat) : Option Cmd :=
  cmdList.find? (fun c => cmdWire c == n)

/-- `AdbMessage.CalculateChecksum` : sum of the payload bytes masked to
32 bits (`sum(data) & 0xFFFFFFFF`). -/
def calculateChecksum (data : List Nat) : Nat :=
  data.sum &&& 0xFFFFFFFF

theorem calculateChecksum_eq_mod (data : List Nat) :
    calculateChecksum data = data.sum % 4294967296 := by
  have h : (0xFFFFFFFF : Nat) = 2 ^ 32 - 1 := rfl
  rw [calculateChecksum, h, Nat.and_pow_two_sub_one_eq_mod]

/-- The in-memory `AdbMessage` object: a wire-format command id, the magic
word, the two arguments and the payload. -/
structure AdbMessage where
  command : Nat
  magic : Nat
  arg0 : Nat
  arg1 : Nat
  data : List Nat
  deriving DecidableEq, Repr

/-- `AdbMessage.__init__` : looks up the wire id of the tag and sets
`magic = command ^ 0xFFFFFFFF`. -/
def adbMessageInit (c : Cmd) (arg0 arg1 : Nat) (data : List Nat) : AdbMessage :=
  { command := cmdWire c
    magic := cmdWire c ^^^ 0xFFFFFFFF
    arg0 := arg0
    arg1 := arg1
    data := data }

/-- `AdbMessage.Pack` : `struct.pack('<6I', command, arg0, arg1, len(data),
checksum, magic)`. -/
def AdbMessage.pack (m : AdbMessage) : List Nat :=
  le32 m.command ++ le32 m.arg0 ++ le32 m.arg1 ++
    le32 m.data.length ++ le32 (calculateChecksum m.data) ++ le32 m.magic

/-- `AdbMessage.Unpack` : `struct.unpack('<6I', message)`, which raises
`ValueError` unless the input is exactly 24 bytes.  The sixth word (magic) is
bound to `unused_magic` in the source and discarded, so it does not appear in
the result. -/
def adbUnpack (msg : List Nat) :
    Except AdbExn (Nat × Nat × Nat × Nat × Nat) :=
  if msg.length = 24 then
    .ok (decLE (msg.take 4), decLE ((msg.drop 4).take 4),
         decLE ((msg.drop 8).take 4), decLE ((msg.drop 12).take 4),
         decLE ((msg.drop 16).take 4))
  else
    .error .valueError

theorem cmdWire_lt (c : Cmd) : cmdWire c < 4294967296 := by
  cases c <;> decide

theorem cmdWire_xor_lt (c : Cmd) : cmdWire c ^^^ 0xFFFFFFFF < 4294967296 := by
  cases c <;> decide

/-- C6: unpacking a packed header recovers command, args, payload length and
the mod-2³² payload checksum; the magic word of the packed header is the
command XORed with `0xFFFFFFFF`. -/
theorem pack_header_fields (c : Cmd) (a0 a1 : Nat) (data : List Nat)
    (h0 : a0 < 4294967296) (h1 : a1 < 4294967296)
    (h2 : data.length < 4294967296) :
    adbUnpack (adbMessageInit c a0 a1 data).pack =
      .ok (cmdWire c, a0, a1, data.length, data.sum % 4294967296) ∧
    decLE ((adbMessageInit c a0 a1 data).pack.drop 20) =
      cmdWire c ^^^ 0xFFFFFFFF := by
  have hcs : calculateChecksum data < 4294967296 := by
    rw [calculateChecksum_eq_mod]; exact Nat.mod_lt _ (by omega)
  have hc := cmdWire_lt c
  constructor
  · simp only [adbUnpack, adbMessageInit, AdbMessage.pack, le32,
      calculateChecksum_eq_mod, List.cons_append, List.nil_append,
      List.length_cons, List.length_nil, if_pos, List.take, List.drop, decLE,
      List.foldr, Except.ok.injEq, Prod.mk.injEq]
    refine ⟨?_, ?_, ?_, ?_, ?_⟩ <;> omega
  · simp only [adbMessageInit, AdbMessage.pack, le32, List.cons_append,
      List.nil_append, List.drop, decLE, List.foldr]
    have := cmdWire_xor_lt c
    omega

/-- The 24 header bytes as written on the wire: six little-endian 32-bit
words `<command, arg0, arg1, data_length, data_checksum, magic>`. -/
def packHeader (w a0 a1 dl ck magic : Nat) : List Nat :=
  le32 w ++ le32 a0 ++ le32 a1 ++ le32 dl ++ le32 ck ++ le32 magic

theorem packHeader_length (w a0 a1 dl ck magic : Nat) :
    (packHeader w a0 a1 dl ck magic).length = 24 := rfl

theorem adbUnpack_packHeader (w a0 a1 dl ck magic : Nat)
    (hw : w < 4294967296) (h0 : a0 < 4294967296) (h1 : a1 < 4294967296)
    (hdl : dl < 4294967296) (hck : ck < 4294967296) :
    adbUnpack (packHeader w a0 a1 dl ck magic) = .ok (w, a0, a1, dl, ck) := by
  simp only [adbUnpack, packHeader, le32, List.cons_append, List.nil_append,
    List.length_cons, List.length_nil, if_pos, List.take, List.drop, decLE,
    List.foldr, Except.ok.injEq, Prod.mk.injEq]
  refine ⟨?_, ?_, ?_, ?_, ?_⟩ <;> omega

theorem wireToCmd_cmdWire (c : Cmd) : wireToCmd (cmdWire c) = some c := by
  cases c <;> rfl

/-- One decoding attempt of `AdbMessage.Read`: error, deliver a message, or
skip (recognized command not in the expected set). -/
inductive ReadStep where
  | err (e : AdbExn)
  | ret (command : Cmd) (arg0 arg1 : Nat) (data rest : List Nat)
  | skip
  deriving DecidableEq, Repr

/-- The body of one iteration of `AdbMessage.Read`.  The transport is a flat
byte stream; `usb.BulkRead(24)` is `stream.take 24` and reading the declared
payload (across any fragmentation) is `take data_length` of the remainder.
A transport with fewer bytes than the declared payload eventually times out,
modelled as `ReadFailedError` with the libusb timeout value `-7`. -/
def adbReadStep (expected : List Cmd) (stream : List Nat) : ReadStep :=
  match adbUnpack (stream.take 24) with
  | .error e => .err e
  | .ok (cmd, arg0, arg1, dataLength, dataChecksum) =>
    match wireToCmd cmd with
    | none => .err .invalidCommand
    | some command =>
      if command ∈ expected then
        let rest := stream.drop 24
        if 0 < dataLength then
          if rest.length < dataLength then .err (.readFailed (-7))
          else if calculateChecksum (rest.take dataLength) ≠ dataChecksum then
            .err .invalidChecksum
          else .ret command arg0 arg1 (rest.take dataLength)
                 (rest.drop dataLength)
        else .ret command arg0 arg1 [] rest
      else .skip

/-- `AdbMessage.Read` : the receive loop.  The wall-clock deadline of the
skip loop is modelled by `fuel`: each skipped message costs one unit, and an
exhausted budget raises the source's `InvalidCommandError('Never got one of
the expected responses')`.  Returns the decoded message together with the
unconsumed stream suffix. -/
def adbRead (expected : List Cmd) (fuel : Nat) (stream : List Nat) :
    Except AdbExn (Cmd × Nat × Nat × List Nat × List Nat) :=
  match adbReadStep expected stream, fuel with
  | .err e, _ => .error e
  | .ret command arg0 arg1 data rest, _ => .ok (command, arg0, arg1, data, rest)
  | .skip, 0 => .error .invalidCommand
  | .skip, fuel' + 1 => adbRead expected fuel' (stream.drop 24)

theorem adbRead_expected_step (expected : List Cmd) (fuel : Nat) (c : Cmd)
    (a0 a1 dl ck magic : Nat) (tail : List Nat)
    (h0 : a0 < 4294967296) (h1 : a1 < 4294967296)
    (hdl : dl < 4294967296) (hck : ck < 4294967296) (hc : c ∈ expected) :
    adbRead expected fuel (packHeader (cmdWire c) a0 a1 dl ck magic ++ tail) =
      (if 0 < dl then
        if tail.length < dl then .error (.readFailed (-7))
        else if calculateChecksum (tail.take dl) ≠ ck then
          .error .invalidChecksum
        else .ok (c, a0, a1, tail.take dl, tail.drop dl)
      else .ok (c, a0, a1, [], tail)) := by
  have htake : (packHeader (cmdWire c) a0 a1 dl ck magic ++ tail).take 24 =
      packHeader (cmdWire c) a0 a1 dl ck magic :=
    List.take_left' (packHeader_length _ _ _ _ _ _)
  have hdrop : (packHeader (cmdWire c) a0 a1 dl ck magic ++ tail).drop 24 =
      tail :=
    List.drop_left' (packHeader_length _ _ _ _ _ _)
  have hstep : adbReadStep expected
      (packHeader (cmdWire c) a0 a1 dl ck magic ++ tail) =
      (if 0 < dl then
        if tail.length < dl then .err (.readFailed (-7))
        else if calculateChecksum (tail.take dl) ≠ ck then
          .err .invalidChecksum
        else .ret c a0 a1 (tail.take dl) (tail.drop dl)
      else .ret c a0 a1 [] tail) := by
    rw [adbReadStep, htake, hdrop,
      adbUnpack_packHeader _ _ _ _ _ _ (cmdWire_lt c) h0 h1 hdl hck]
    simp only [wireToCmd_cmdWire, if_pos hc]
  rw [adbRead.eq_def, hstep]
  by_cases hp : 0 < dl
  · simp only [if_pos hp]
    by_cases hl : tail.length < dl
    · simp only [if_pos hl]
    · simp only [if_neg hl]
      by_cases hcks : calculateChecksum (tail.take dl) ≠ ck
      · simp only [if_pos hcks]
      · simp only [if_neg hcks]
  · simp only [if_neg hp]

theorem adbRead_skip_step (expected : List Cmd) (fuel : Nat) (c : Cmd)
    (a0 a1 dl ck magic : Nat) (tail : List Nat)
    (h0 : a0 < 4294967296) (h1 : a1 < 4294967296)
    (hdl : dl < 4294967296) (hck : ck < 4294967296) (hc : c ∉ expected) :
    adbRead expected (fuel + 1)
        (packHeader (cmdWire c) a0 a1 dl ck magic ++ tail) =
      adbRead expected fuel tail := by
  have hdrop : (packHeader (cmdWire c) a0 a1 dl ck magic ++ tail).drop 24 =
      tail :=
    List.drop_left' (packHeader_length _ _ _ _ _ _)
  have htake : (packHeader (cmdWire c) a0 a1 dl ck magic ++ tail).take 24 =
      packHeader (cmdWire c) a0 a1 dl ck magic :=
    List.take_left' (packHeader_length _ _ _ _ _ _)
  have hstep : adbReadStep expected
      (packHeader (cmdWire c) a0 a1 dl ck magic ++ tail) = .skip := by
    rw [adbReadStep, htake,
      adbUnpack_packHeader _ _ _ _ _ _ (cmdWire_lt c) h0 h1 hdl hck]
    simp only [wireToCmd_cmdWire, if_neg hc]
  rw [adbRead.eq_def, hstep, hdrop]

/-- C9: when the reader skips a recognized but unexpected message, it does
not consume the skipped message's declared payload: the read continues
directly at the byte after the 24-byte header, so for a skipped message with
nonzero `data_length` the payload bytes stay on the transport and the first
24 of them are decoded as the next header. -/
theorem skipped_message_payload_not_consumed (expected : List Cmd)
    (fuel : Nat) (c : Cmd) (a0 a1 dl ck magic : Nat) (payload rest : List Nat)
    (h0 : a0 < 4294967296) (h1 : a1 < 4294967296)
    (hdl : dl < 4294967296) (hck : ck < 4294967296)
    (hdlpos : 0 < dl) (hpay : payload.length = dl) (hc : c ∉ expected) :
    adbRead expected (fuel + 1)
        (packHeader (cmdWire c) a0 a1 dl ck magic ++ (payload ++ rest)) =
      adbRead expected fuel (payload ++ rest) := by
  exact adbRead_skip_step expected fuel c a0 a1 dl ck magic (payload ++ rest)
    h0 h1 hdl hck hc

/-- C1 counterexample: a received CNXN message whose header magic word is 0
(violating `magic == opcode XOR 0xFFFFFFFF`) and whose declared checksum 5
differs from the checksum recomputed over its (empty) payload is returned
successfully to the caller instead of failing the read. -/
theorem read_accepts_bad_magic_counterexample :
    adbRead [Cmd.cnxn] 0 (packHeader (cmdWire .cnxn) 0 0 0 5 0) =
      .ok (Cmd.cnxn, 0, 0, [], []) ∧
    (0 : Nat) ≠ cmdWire Cmd.cnxn ^^^ 0xFFFFFFFF ∧
    calculateChecksum [] ≠ 5 :=
  ⟨rfl, by decide, by decide⟩

/-- C1 (amended): the reader verifies only the payload checksum, and only
when the declared `data_length` is positive: a mismatch fails the read with
`InvalidChecksumError` and the message is not returned to the caller.  The
magic word of a received header is never inspected (the conclusions hold for
every `magic`), and a message with `data_length = 0` is returned without any
checksum comparison (the last conclusion holds for every declared `ck`). -/
theorem read_checksum_verified_magic_ignored (expected : List Cmd)
    (fuel : Nat) (c : Cmd) (a0 a1 ck magic : Nat) (payload rest : List Nat)
    (h0 : a0 < 4294967296) (h1 : a1 < 4294967296)
    (hdl : payload.length < 4294967296) (hck : ck < 4294967296)
    (hc : c ∈ expected) :
    (0 < payload.length → calculateChecksum payload ≠ ck →
      adbRead expected fuel
        (packHeader (cmdWire c) a0 a1 payload.length ck magic ++
          (payload ++ rest)) = .error .invalidChecksum) ∧
    (0 < payload.length → calculateChecksum payload = ck →
      adbRead expected fuel
        (packHeader (cmdWire c) a0 a1 payload.length ck magic ++
          (payload ++ rest)) = .ok (c, a0, a1, payload, rest)) ∧
    (payload = [] →
      adbRead expected fuel
        (packHeader (cmdWire c) a0 a1 payload.length ck magic ++
          (payload ++ rest)) = .ok (c, a0, a1, [], rest)) := by
  have hstep := adbRead_expected_step expected fuel c a0 a1 payload.length ck
    magic (payload ++ rest) h0 h1 hdl hck hc
  rw [List.take_left, List.drop_left] at hstep
  have hlen : ¬ (payload ++ rest).length < payload.length := by
    simp only [List.length_append]; omega
  refine ⟨?_, ?_, ?_⟩
  · intro hp hne
    rw [hstep, if_pos hp, if_neg hlen, if_pos hne]
  · intro hp heq
    rw [hstep, if_pos hp, if_neg hlen, if_neg (by simp [heq])]
  · intro hpe
    subst hpe
    rw [hstep]
    simp

/-- `_AdbConnection` : one ADB stream, identified by its local and remote
ids (the usb handle and timeout are implicit in the stream model). -/
structure AdbConnection where
  localId : Nat
  remoteId : Nat
  deriving DecidableEq, Repr

/-- `_AdbConnection.Okay` : the flow-control ack message
`OKAY(arg0=local_id, arg1=remote_id)` built by `_Send`. -/
def okayMessage (conn : AdbConnection) : AdbMessage :=
  adbMessageInit .okay conn.localId conn.remoteId []

/-- The CLSE message `_AdbConnection.Close` sends via `_Send`. -/
def closeMessage (conn : AdbConnection) : AdbMessage :=
  adbMessageInit .clse conn.localId conn.remoteId []

/-- `_AdbConnection.ReadUntil` : read one message via `AdbMessage.Read`
(destructured as `cmd, remote_id, local_id, data`, i.e. `arg0` is the
sender's id and `arg1` ours), reject id mismatches, and ack a `WRTE` with an
`OKAY` before returning the data.  The returned list collects the messages
the host sent during the call, in order. -/
def readUntil (conn : AdbConnection) (expected : List Cmd) (fuel : Nat)
    (stream : List Nat) :
    Except AdbExn (Cmd × List Nat × List Nat × List AdbMessage) :=
  match adbRead expected fuel stream with
  | .error e => .error e
  | .ok (cmd, remoteId, localId, data, rest) =>
    if localId ≠ 0 ∧ conn.localId ≠ localId then .error .interleavedData
    else if remoteId ≠ 0 ∧ conn.remoteId ≠ remoteId then
      .error .invalidResponse
    else if cmd = .wrte then .ok (cmd, data, rest, [okayMessage conn])
    else .ok (cmd, data, rest, [])

/-- `_AdbConnection.Close` : send `CLSE(local_id, remote_id)`, then
`ReadUntil(CLSE)`.  The result is paired with the full list of messages sent
during the call, which begins with the CLSE we sent (present even when the
wait for the reply fails).  The source's `FAIL`/`InvalidCommand` arms after
`ReadUntil(b'CLSE')` are unreachable, because `FAIL` is not an ADB wire id
and `Read` only returns a command from the expected set. -/
def adbClose (conn : AdbConnection) (fuel : Nat) (stream : List Nat) :
    Except AdbExn (List Nat) × List AdbMessage :=
  match readUntil conn [.clse] fuel stream with
  | .error e => (.error e, [closeMessage conn])
  | .ok (cmd, _, rest, writes) =>
    if cmd = .clse then (.ok rest, closeMessage conn :: writes)
    else (.error .invalidCommand, closeMessage conn :: writes)

/-- C2 counterexample: on the stream (local_id 1, remote_id 2), a received
OKAY carrying the matching local_id 1 but the foreign nonzero remote_id 3
aborts with `InvalidResponseError`, not with the `InterleavedDataError` the
claim requires for both id mismatches. -/
theorem remote_id_mismatch_error_counterexample :
    readUntil ⟨1, 2⟩ [.okay] 0 (packHeader (cmdWire .okay) 3 1 0 0 0) =
      .error .invalidResponse ∧
    AdbExn.invalidResponse ≠ AdbExn.interleavedData :=
  ⟨rfl, by decide⟩

/-- C2 (amended): `ReadUntil` aborts without delivering the message on any
id mismatch, but with two different errors: a nonzero `local_id` differing
from the stream's local_id raises `InterleavedDataError`, while a nonzero
`remote_id` differing from the stream's remote_id (when the local_id was
acceptable) raises `InvalidResponseError`. -/
theorem readUntil_id_validation (conn : AdbConnection) (expected : List Cmd)
    (fuel : Nat) (stream : List Nat) (cmd : Cmd) (rid lid : Nat)
    (data rest : List Nat)
    (h : adbRead expected fuel stream = .ok (cmd, rid, lid, data, rest)) :
    (lid ≠ 0 ∧ conn.localId ≠ lid →
      readUntil conn expected fuel stream = .error .interleavedData) ∧
    (¬(lid ≠ 0 ∧ conn.localId ≠ lid) → rid ≠ 0 ∧ conn.remoteId ≠ rid →
      readUntil conn expected fuel stream = .error .invalidResponse) := by
  constructor
  · intro hl
    simp only [readUntil, h, if_pos hl]
  · intro hnl hr
    simp only [readUntil, h, if_neg hnl, if_pos hr]

/-- C5: for the message `ReadUntil` delivers, the host's traffic during the
call is exactly one `OKAY(local_id, remote_id)` when that message is a WRTE
(sent before the payload is returned), and nothing for any other opcode. -/
theorem wrte_acked_exactly_once (conn : AdbConnection) (expected : List Cmd)
    (fuel : Nat) (stream : List Nat) (cmd : Cmd) (data rest : List Nat)
    (writes : List AdbMessage)
    (h : readUntil conn expected fuel stream = .ok (cmd, data, rest, writes)) :
    writes = if cmd = .wrte then [okayMessage conn] else [] := by
  unfold readUntil at h
  cases hr : adbRead expected fuel stream with
  | error e => rw [hr] at h; exact absurd h (by simp)
  | ok v =>
    obtain ⟨c', rid, lid, d, r⟩ := v
    rw [hr] at h
    by_cases h1 : lid ≠ 0 ∧ conn.localId ≠ lid
    · simp [h1] at h
    · by_cases h2 : rid ≠ 0 ∧ conn.remoteId ≠ rid
      · simp [h1, h2] at h
      · by_cases h3 : c' = .wrte
        · simp only [if_neg h1, if_neg h2, if_pos h3, Except.ok.injEq,
            Prod.mk.injEq] at h
          obtain ⟨hcmd, _, _, hw⟩ := h
          rw [← hw, ← hcmd, h3, if_pos rfl]
        · simp only [if_neg h1, if_neg h2, if_neg h3, Except.ok.injEq,
            Prod.mk.injEq] at h
          obtain ⟨hcmd, _, _, hw⟩ := h
          rw [← hw, ← hcmd, if_neg h3]

/-- C8 counterexample: with the device replying CLSE to each CLSE we send
(local_id 1, remote_id 2), a first `Close` succeeds and leaves the second
reply on the transport; calling `Close` again on the already-closed stream
again sends a CLSE message — transport traffic, not a no-op. -/
theorem close_not_noop_counterexample :
    (adbClose ⟨1, 2⟩ 0
        ((adbMessageInit .clse 2 1 []).pack ++
          (adbMessageInit .clse 2 1 []).pack)).1 =
      .ok ((adbMessageInit .clse 2 1 []).pack) ∧
    (adbClose ⟨1, 2⟩ 0 ((adbMessageInit .clse 2 1 []).pack)).2 =
      [closeMessage ⟨1, 2⟩] ∧
    [closeMessage ⟨1, 2⟩] ≠ ([] : List AdbMessage) :=
  ⟨rfl, rfl, by simp⟩

/-- C8 (amended): `Close` keeps no closed-state and is not idempotent: every
call — including one on an already-closed stream — begins by sending
`CLSE(local_id, remote_id)` on the transport and then waits for a CLSE
reply. -/
theorem close_always_sends_clse (conn : AdbConnection) (fuel : Nat)
    (stream : List Nat) :
    (adbClose conn fuel stream).2.head? = some (closeMessage conn) := by
  unfold adbClose
  cases readUntil conn [.clse] fuel stream with
  | error e => rfl
  | ok v =>
    obtain ⟨cmd, d, r, w⟩ := v
    by_cases h : cmd = .clse <;> simp [h]

/-- AUTH constants for arg0. -/
def AUTH_TOKEN : Nat := 1

def AUTH_SIGNATURE : Nat := 2

def AUTH_RSAPUBLICKEY : Nat := 3

/-- `AuthSigner` : sign a challenge, export a public key. -/
structure AuthSigner where
  sign : List Nat → List Nat
  getPublicKey : List Nat

/-- The outcome of one `cls.Read` call during `Connect`, as scripted by the
device: either a decoded message `(cmd, arg0, arg1, data)` or the exception
that read raised.  An exhausted script stands for a transport that never
answers, i.e. a USB read timeout (`ReadFailedError` wrapping libusb `-7`). -/
def ConnectRead : Type := Except AdbExn (Cmd × Nat × Nat × List Nat)

/-- The `except usb_exceptions.ReadFailedError` clause guarding the final
`Read(usb, [CNXN], timeout_ms=auth_timeout_ms)` of `Connect`: only a
`ReadFailedError` whose wrapped libusb error value is `-7` (timeout) is
re-raised as `DeviceAuthError('Accept auth key on device, then retry.')`;
everything else propagates unchanged. -/
def enrollCatch : AdbExn → AdbExn
  | .readFailed v => if v = -7 then .deviceAuth else .readFailed v
  | e => e

/-- The wait for the final CNXN after sending
`AUTH(AUTH_RSAPUBLICKEY, public_key + NUL)`. -/
def connectEnroll (reads : List ConnectRead) : Except AdbExn (List Nat) :=
  match reads with
  | [] => .error (enrollCatch (.readFailed (-7)))
  | r :: _ =>
    match r with
    | .ok (_, _, _, banner) => .ok banner
    | .error e => .error (enrollCatch e)

/-- ADB protocol version and maximum packet payload. -/
def VERSION : Nat := 0x01000000

def MAX_ADB_DATA : Nat := 4096

/-- The `for rsa_key in rsa_keys` loop of `Connect`: check the AUTH arg0 is
`AUTH_TOKEN`, send `AUTH(AUTH_SIGNATURE, 0, sign(token))`, read the next
CNXN/AUTH; a CNXN ends the handshake with its banner, another AUTH moves on
to the next key.  When the keys are exhausted, the public key of the first
signer followed by a NUL byte is sent as `AUTH(AUTH_RSAPUBLICKEY, ...)` and
the final CNXN is awaited (`connectEnroll`).  The second component collects
the AUTH messages the host sent, in order. -/
def connectAuthKeys (keys : List AuthSigner) (firstKey : AuthSigner)
    (arg0 : Nat) (token : List Nat) (reads : List ConnectRead) :
    Except AdbExn (List Nat) × List AdbMessage :=
  match keys with
  | [] =>
    (connectEnroll reads,
     [adbMessageInit .auth AUTH_RSAPUBLICKEY 0 (firstKey.getPublicKey ++ [0])])
  | key :: restKeys =>
    if arg0 ≠ AUTH_TOKEN then (.error .invalidResponse, [])
    else
      let sigMsg := adbMessageInit .auth AUTH_SIGNATURE 0 (key.sign token)
      match reads with
      | [] => (.error (.readFailed (-7)), [sigMsg])
      | .error e :: _ => (.error e, [sigMsg])
      | .ok (cmd, arg0', _, banner') :: rs =>
        if cmd = .cnxn then (.ok banner', [sigMsg])
        else
          let rest := connectAuthKeys restKeys firstKey arg0' banner' rs
          (rest.1, sigMsg :: rest.2)

/-- `AdbMessage.Connect` : send `CNXN(VERSION, MAX_ADB_DATA,
'host::<banner>\x00')`, then read CNXN (done: return the device banner) or
AUTH (authenticate).  An AUTH arriving with no keys available raises
`DeviceAuthError` at once.  `reads` scripts the outcome of each successive
`cls.Read` call; the second component is every message the host sent. -/
def connect (banner : List Nat) (rsaKeys : List AuthSigner)
    (reads : List ConnectRead) : Except AdbExn (List Nat) × List AdbMessage :=
  let cnxnMsg := adbMessageInit .cnxn VERSION MAX_ADB_DATA
    ([104, 111, 115, 116, 58, 58] ++ banner ++ [0])
  match reads with
  | [] => (.error (.readFailed (-7)), [cnxnMsg])
  | r :: rs =>
    match r with
    | .error e => (.error e, [cnxnMsg])
    | .ok (cmd, arg0, _, deviceBanner) =>
      if cmd = .auth then
        match rsaKeys with
        | [] => (.error .deviceAuth, [cnxnMsg])
        | firstKey :: _ =>
          let rest := connectAuthKeys rsaKeys firstKey arg0 deviceBanner rs
          (rest.1, cnxnMsg :: rest.2)
      else (.ok deviceBanner, [cnxnMsg])

theorem connectAuthKeys_all_rejected (keys : List AuthSigner)
    (fk : AuthSigner) (token : List Nat) (e : AdbExn) :
    (connectAuthKeys keys fk 1 token
        (List.replicate keys.length (.ok (.auth, 1, 0, token)) ++
          [.error e])).1 = .error (enrollCatch e) := by
  induction keys generalizing token with
  | nil => simp [connectAuthKeys, connectEnroll]
  | cons k ks ih =>
    simp only [List.length_cons, List.replicate_succ, List.cons_append,
      connectAuthKeys, AUTH_TOKEN]
    rw [if_neg (by omega)]
    simpa using ih token

theorem connectAuthKeys_error_inside (keys : List AuthSigner)
    (fk : AuthSigner) (token : List Nat) (e : AdbExn) (j : Nat)
    (hj : j < keys.length) :
    (connectAuthKeys keys fk 1 token
        (List.replicate j (.ok (.auth, 1, 0, token)) ++ [.error e])).1 =
      .error e := by
  induction keys generalizing token j with
  | nil => simp at hj
  | cons k ks ih =>
    cases j with
    | zero =>
      simp only [List.replicate_zero, List.nil_append, connectAuthKeys,
        AUTH_TOKEN]
      rw [if_neg (by omega)]
    | succ j' =>
      simp only [List.replicate_succ, List.cons_append, connectAuthKeys,
        AUTH_TOKEN]
      rw [if_neg (by omega)]
      have hj' : j' < ks.length := by
        simp only [List.length_cons] at hj
        omega
      simpa using ih token j' hj'

/-- C3 counterexample: with one signer, the device rejecting its signature
and the handshake reaching the enrollment wait (the host's last sent message
is `AUTH(AUTH_RSAPUBLICKEY, public_key + NUL)`), a TCP transport timeout
(`TcpTimeoutException`) while waiting for the final CNXN propagates as
itself instead of being surfaced as `DeviceAuthError`: the relabeling only
catches `ReadFailedError` with libusb value `-7`. -/
theorem tcp_timeout_not_relabeled_counterexample :
    (connect [] [⟨fun d => d, [65]⟩]
        [.ok (.auth, 1, 0, [7]), .ok (.auth, 1, 0, [7]),
         .error .tcpTimeout]).1 = .error .tcpTimeout ∧
    (connect [] [⟨fun d => d, [65]⟩]
        [.ok (.auth, 1, 0, [7]), .ok (.auth, 1, 0, [7]),
         .error .tcpTimeout]).2.getLast? =
      some (adbMessageInit .auth AUTH_RSAPUBLICKEY 0 [65, 0]) ∧
    AdbExn.tcpTimeout ≠ AdbExn.deviceAuth :=
  ⟨rfl, rfl, by decide⟩

/-- C3 (amended): during the enrollment wait (all signers rejected, public
key sent), a read failure is filtered through `enrollCatch`: only a
`ReadFailedError` wrapping libusb's timeout value `-7` becomes
`DeviceAuthError`; any other failure there — including a TCP timeout —
propagates unrelabeled.  A read failure at any earlier point of the
handshake (the initial CNXN/AUTH read or any per-key read) always
propagates unrelabeled. -/
theorem connect_timeout_relabel (banner token : List Nat)
    (keys : List AuthSigner) (hk : keys ≠ []) (e : AdbExn) :
    (connect banner keys
        (List.replicate (keys.length + 1) (.ok (.auth, 1, 0, token)) ++
          [.error e])).1 = .error (enrollCatch e) ∧
    (∀ j ≤ keys.length,
      (connect banner keys
          (List.replicate j (.ok (.auth, 1, 0, token)) ++ [.error e])).1 =
        .error e) := by
  constructor
  · match keys, hk with
    | fk :: ks, _ =>
      simp only [List.replicate_succ, List.cons_append, connect]
      simpa using connectAuthKeys_all_rejected (fk :: ks) fk token e
  · intro j hj
    cases j with
    | zero => cases keys with
      | nil => rfl
      | cons fk ks => rfl
    | succ j' =>
      match keys, hk with
      | fk :: ks, _ =>
        simp only [List.replicate_succ, List.cons_append, connect]
        have hj' : j' < (fk :: ks).length := by
          simp only [List.length_cons] at hj ⊢
          omega
        simpa using connectAuthKeys_error_inside (fk :: ks) fk token e j' hj'

/-- Witness for `connect_timeout_relabel` at one signer, token `[7]`,
`e = ReadFailedError(-7)` (which `enrollCatch` relabels to
`DeviceAuthError`) and, for the second part, a failure on the first per-key
read. -/
theorem connect_timeout_relabel_witness :
    ([⟨fun d => d, [65]⟩] : List AuthSigner) ≠ [] ∧ 1 ≤ 1 ∧
    (connect [] [⟨fun d => d, [65]⟩]
        (List.replicate 2 (.ok (.auth, 1, 0, [7])) ++
          [.error (.readFailed (-7))])).1 =
      .error (enrollCatch (.readFailed (-7))) ∧
    (connect [] [⟨fun d => d, [65]⟩]
        (List.replicate 1 (.ok (.auth, 1, 0, [7])) ++
          [.error (.readFailed (-7))])).1 = .error (.readFailed (-7)) ∧
    enrollCatch (.readFailed (-7)) = .deviceAuth := by
  refine ⟨by simp, le_refl 1, ?_, ?_, by decide⟩
  · exact (connect_timeout_relabel [] [7] [⟨fun d => d, [65]⟩]
      (by simp) (.readFailed (-7))).1
  · exact (connect_timeout_relabel [] [7] [⟨fun d => d, [65]⟩]
      (by simp) (.readFailed (-7))).2 1 (le_refl 1)

/-- Errors of the fastboot layer (`fastboot.py`), one constructor per
exception class; `valueError` stands for the uncaught Python
`binascii.Error`/`struct.error` when the DATA response does not carry 8 hex
digits, and `readFailed` for a transport whose response script is
exhausted. -/
inductive FbExn where
  | transferError
  | stateMismatch
  | remoteFailure
  | invalidResponse
  | valueError
  | readFailed
  deriving DecidableEq, Repr

/-- ASCII tags of the fastboot response headers. -/
def infoTag : List Nat := [73, 78, 70, 79]

def okayTag : List Nat := [79, 75, 65, 89]

def failTag : List Nat := [70, 65, 73, 76]

def dataTag : List Nat := [68, 65, 84, 65]

/-- `FastbootProtocol.FINAL_HEADERS`. -/
def FINAL_HEADERS : List (List Nat) := [okayTag, dataTag]

/-- `FastbootProtocol._AcceptResponses` : consume 64-byte responses until
the expected final header; `INFO` responses are passed to the callback and
skipped, `FAIL` raises `FastbootRemoteFailure`, a final header other than
the expected one raises `FastbootStateMismatch`, anything else raises
`FastbootInvalidResponse`.  Returns the bytes after the header together with
the unconsumed responses. -/
def acceptResponses (expectedHeader : List Nat) (rs : List (List Nat)) :
    Except FbExn (List Nat × List (List Nat)) :=
  match rs with
  | [] => .error .readFailed
  | response :: rest =>
    let header := response.take 4
    let remaining := response.drop 4
    if header = infoTag then acceptResponses expectedHeader rest
    else if header ∈ FINAL_HEADERS then
      if header ≠ expectedHeader then .error .stateMismatch
      else .ok (remaining, rest)
    else if header = failTag then .error .remoteFailure
    else .error .invalidResponse

/-- One ASCII hex digit (`binascii.unhexlify` accepts 0-9, a-f, A-F). -/
def hexDigit (c : Nat) : Option Nat :=
  if 48 ≤ c ∧ c ≤ 57 then some (c - 48)
  else if 97 ≤ c ∧ c ≤ 102 then some (c - 87)
  else if 65 ≤ c ∧ c ≤ 70 then some (c - 55)
  else none

/-- `binascii.unhexlify` : pairs of hex digits to bytes; `none` is the
`binascii.Error` raised on an odd-length or non-hex input. -/
def unhexlify : List Nat → Option (List Nat)
  | [] => some []
  | [_] => none
  | a :: b :: rest =>
    match hexDigit a, hexDigit b, unhexlify rest with
    | some da, some db, some tail => some ((16 * da + db) :: tail)
    | _, _, _ => none

/-- `struct.unpack('>I', ·)` : big-endian decoding of exactly 4 bytes. -/
def decBE (bs : List Nat) : Nat :=
  bs.foldl (fun acc b => 256 * acc + b) 0

/-- The accepted-size parse in `HandleDataSending`:
`unhexlify(accepted_size[:8])` then `struct.unpack('>I', ...)`; `none` is
the uncaught Python exception on anything but 8 hex digits. -/
def parseAcceptedSize (bs : List Nat) : Option Nat :=
  match unhexlify (bs.take 8) with
  | none => none
  | some bytes => if bytes.length = 4 then some (decBE bytes) else none

/-- `FastbootProtocol._Write` : stream the source in chunks of
`chunk_kb * 1024` bytes until `length` bytes have been counted; each chunk
is one `BulkWrite`.  (With `chunkSize = 0` or a source shorter than
`length` the Python loop would spin forever re-reading an empty chunk; the
model stops emitting writes instead.) -/
def fbWrite (chunkSize length : Nat) (data : List Nat) : List (List Nat) :=
  if length = 0 then []
  else if chunkSize = 0 ∨ data = [] then []
  else
    data.take chunkSize ::
      fbWrite chunkSize (length - min chunkSize data.length)
        (data.drop chunkSize)
termination_by data.length
decreasing_by
  rename_i h1 h2
  simp only [not_or] at h2
  have : data ≠ [] := h2.2
  have : 0 < data.length := List.length_pos.mpr this
  have : 0 < chunkSize := Nat.pos_of_ne_zero h2.1
  simp only [List.length_drop]
  omega

/-- `FastbootProtocol.HandleDataSending` : await the `DATA` response, parse
its 8-hex-digit accepted size, require it to equal `source_len` (else
`FastbootTransferError`), only then stream the payload and await `OKAY`.
The second component is the list of payload `BulkWrite`s performed. -/
def handleDataSending (sourceData : List Nat) (sourceLen chunkSize : Nat)
    (rs : List (List Nat)) : Except FbExn (List Nat) × List (List Nat) :=
  match acceptResponses dataTag rs with
  | .error e => (.error e, [])
  | .ok (acceptedRaw, rest) =>
    match parseAcceptedSize acceptedRaw with
    | none => (.error .valueError, [])
    | some acceptedSize =>
      if acceptedSize ≠ sourceLen then (.error .transferError, [])
      else
        let writes := fbWrite chunkSize acceptedSize sourceData
        match acceptResponses okayTag rest with
        | .error e => (.error e, writes)
        | .ok (msg, _) => (.ok msg, writes)

/-- C4: if the device's DATA response parses to an accepted size different
from the requested `sourceLen`, `HandleDataSending` fails with
`FastbootTransferError` and the write trace is empty — zero payload bytes
reach the transport before the failure. -/
theorem data_size_mismatch_no_write (sourceData : List Nat)
    (sourceLen chunkSize : Nat) (rs : List (List Nat))
    (acceptedRaw : List Nat) (rest : List (List Nat)) (m : Nat)
    (hacc : acceptResponses dataTag rs = .ok (acceptedRaw, rest))
    (hparse : parseAcceptedSize acceptedRaw = some m)
    (hne : m ≠ sourceLen) :
    handleDataSending sourceData sourceLen chunkSize rs =
      (.error .transferError, []) := by
  simp only [handleDataSending, hacc, hparse, if_pos hne]

/-- Witness for `data_size_mismatch_no_write`: the device answers
`DATA0000000c` (accepts 12 bytes) to a request to download 11 bytes. -/
theorem data_size_mismatch_no_write_witness :
    acceptResponses dataTag [dataTag ++ [48, 48, 48, 48, 48, 48, 48, 99]] =
      .ok ([48, 48, 48, 48, 48, 48, 48, 99], []) ∧
    parseAcceptedSize [48, 48, 48, 48, 48, 48, 48, 99] = some 12 ∧
    12 ≠ 11 ∧
    handleDataSending [0, 1, 2, 3, 4, 5, 6, 7, 8, 9, 10] 11 1024
        [dataTag ++ [48, 48, 48, 48, 48, 48, 48, 99]] =
      (.error .transferError, []) :=
  ⟨rfl, rfl, by decide,
   data_size_mismatch_no_write [0, 1, 2, 3, 4, 5, 6, 7, 8, 9, 10] 11 1024
     [dataTag ++ [48, 48, 48, 48, 48, 48, 48, 99]]
     [48, 48, 48, 48, 48, 48, 48, 99] [] 12 rfl rfl (by decide)⟩

/-- The ten filesync wire ids (`FileSyncConnection.ids`). -/
inductive FsId where
  | stat
  | list
  | send
  | recv
  | dent
  | done
  | data
  | okay
  | fail
  | quit
  deriving DecidableEq, Repr

/-- ASCII bytes of each filesync tag. -/
def FsId.tag : FsId → List Nat
  | .stat => [83, 84, 65, 84]
  | .list => [76, 73, 83, 84]
  | .send => [83, 69, 78, 68]
  | .recv => [82, 69, 67, 86]
  | .dent => [68, 69, 78, 84]
  | .done => [68, 79, 78, 69]
  | .data => [68, 65, 84, 65]
  | .okay => [79, 75, 65, 89]
  | .fail => [70, 65, 73, 76]
  | .quit => [81, 85, 73, 84]

/-- `FileSyncConnection.id_to_wire` via `MakeWireIDs`. -/
def fsWire (i : FsId) : Nat := decLE i.tag

/-- `struct.calcsize('<2I')` : length of a filesync send header. -/
def sendHeaderLen : Nat := 8

/-- The sending half of a `FileSyncConnection`: the pending bytes
`send_buffer[:send_idx]` and the `AdbStream.Write` payloads flushed so far.
(`send_buffer` is preallocated at MAX_ADB_DATA bytes, but a Python slice
assignment past its end grows it, which is what `pending` tracks.) -/
structure FileSyncSendState where
  pending : List Nat
  writes : List (List Nat)
  deriving DecidableEq, Repr

/-- `FileSyncConnection._CanAddToSendBuffer` :
`send_idx + (send_header_len + data_len) < MAX_ADB_DATA`. -/
def canAddToSendBuffer (sendIdx dataLen : Nat) : Bool :=
  sendIdx + (sendHeaderLen + dataLen) < MAX_ADB_DATA

/-- `FileSyncConnection._Flush` : `adb.Write` the pending bytes, reset
`send_idx` to 0. -/
def fsFlush (st : FileSyncSendState) : FileSyncSendState :=
  { pending := [], writes := st.writes ++ [st.pending] }

/-- `FileSyncConnection.Send` : take `size` from the data when data is
nonempty, flush first if the packet cannot be added, then append the packed
`<2I>` header and the data to the buffer. -/
def fsSend (st : FileSyncSendState) (commandId : FsId) (data : List Nat)
    (size : Nat) : FileSyncSendState :=
  let size := if data ≠ [] then data.length else size
  let st1 := if canAddToSendBuffer st.pending.length data.length then st
    else fsFlush st
  let buf := le32 (fsWire commandId) ++ le32 size ++ data
  { pending := st1.pending ++ buf, writes := st1.writes }

/-- The send-buffer effect of `FileSyncConnection.Read` :
`if self.send_idx: self._Flush()` before any receiving happens. -/
def fsReadFlushPending (st : FileSyncSendState) : FileSyncSendState :=
  if st.pending ≠ [] then fsFlush st else st

/-- One filesync operation as seen by the send buffer. -/
inductive FsOp where
  | send (commandId : FsId) (data : List Nat) (size : Nat)
  | read
  deriving DecidableEq, Repr

def fsStep (st : FileSyncSendState) : FsOp → FileSyncSendState
  | .send c d sz => fsSend st c d sz
  | .read => fsReadFlushPending st

/-- A sequence of filesync Send/Read operations applied in order. -/
def fsRun (ops : List FsOp) (st : FileSyncSendState) : FileSyncSendState :=
  ops.foldl fsStep st

/-- C7 counterexample: a single filesync `Send` of a 4089-byte payload (for
example a `STAT` of a 4089-byte filename, reachable from
`AdbCommands.Stat`) leaves 8 + 4089 = 4097 pending bytes — more than
MAX_ADB_DATA — because the pre-flush cannot help when one packet alone
exceeds the buffer, and the Python slice assignment silently grows the
bytearray. -/
theorem send_buffer_overflow_counterexample :
    (fsRun [.send .stat (List.replicate 4089 48) 0] ⟨[], []⟩).pending.length =
      4097 ∧
    ¬ (4097 ≤ MAX_ADB_DATA) := by
  constructor
  · have hca : canAddToSendBuffer 0 4089 = false := by decide
    simp only [fsRun, List.foldl_cons, List.foldl_nil, fsStep, fsSend,
      fsFlush, List.length_append, le32_length, List.length_replicate,
      List.length_nil, hca, Bool.false_eq_true, if_false]
  · decide

/-- C7 (amended): as long as every `Send` in the sequence carries a payload
of at most MAX_ADB_DATA − 8 bytes (true of every packet the protocol layer
itself builds, short of an overlong filename), the pending send buffer
never exceeds MAX_ADB_DATA bytes: a packet that no longer fits triggers a
flush first, and every Read flushes before receiving. -/
theorem send_buffer_bounded (ops : List FsOp)
    (hops : ∀ c d sz, FsOp.send c d sz ∈ ops →
      d.length + sendHeaderLen ≤ MAX_ADB_DATA)
    (st : FileSyncSendState) (hst : st.pending.length ≤ MAX_ADB_DATA) :
    (fsRun ops st).pending.length ≤ MAX_ADB_DATA := by
  induction ops generalizing st with
  | nil => simpa [fsRun] using hst
  | cons op ops ih =>
    have hstep : (fsStep st op).pending.length ≤ MAX_ADB_DATA := by
      cases op with
      | read =>
        by_cases hp : st.pending ≠ [] <;>
          simp [fsStep, fsReadFlushPending, fsFlush, hp, hst]
      | send c d sz =>
        have hd := hops c d sz (List.mem_cons_self _ _)
        by_cases hca : canAddToSendBuffer st.pending.length d.length
        · have hlt : st.pending.length + (sendHeaderLen + d.length) <
              MAX_ADB_DATA := by
            simpa [canAddToSendBuffer] using hca
          simp only [fsStep, fsSend, if_pos hca, List.length_append,
            le32_length]
          simp only [sendHeaderLen] at hlt
          omega
        · simp only [fsStep, fsSend, if_neg hca, fsFlush,
            List.length_append, le32_length, List.length_nil]
          simp only [sendHeaderLen] at hd
          omega
    have hmem : ∀ c d sz, FsOp.send c d sz ∈ ops →
        d.length + sendHeaderLen ≤ MAX_ADB_DATA :=
      fun c d sz h => hops c d sz (List.mem_cons_of_mem _ h)
    have hrec := ih hmem (fsStep st op) hstep
    simpa [fsRun, List.foldl_cons] using hrec

/-- The kinds of Python value a caller can pass as `dest_file` to
`AdbCommands.Pull`: `None` (or any falsy value), a string, a writable
file-like object, or any other object. -/
inductive PyVal where
  | pyNone
  | pyStr (s : String)
  | pyFileLike
  | pyOther
  deriving DecidableEq, Repr

/-- Python truthiness of the modelled values: `None` is falsy, a string is
truthy iff nonempty, file-like and other objects are truthy. -/
def pyTruthy : PyVal → Bool
  | .pyNone => false
  | .pyStr s => !s.isEmpty
  | .pyFileLike => true
  | .pyOther => true

/-- Stream/transport actions performed by `AdbCommands.Pull`. -/
inductive StreamOp where
  | openStream (destination : String)
  | filesyncPull (deviceFilename : String)
  | closeStream
  deriving DecidableEq, Repr

/-- `AdbCommands.Pull` : `if not dest_file:` pull into an in-memory
`BytesIO`; `elif isinstance(dest_file, str):` open that file; `else: raise
ValueError("destfile is of unknown type")` — the raise happens before
`protocol_handler.Open` runs, so the error branch performs no stream or
transport operation.  The accepted branches then open `sync:`, run the
filesync Pull (modelled by the filesync layer above) and close; their
traffic is abstracted to its operation trace. -/
def adbCommandsPull (deviceFilename : String) (destFile : PyVal) :
    Except AdbExn Unit × List StreamOp :=
  if pyTruthy destFile = false then
    (.ok (), [.openStream "sync:", .filesyncPull deviceFilename,
              .closeStream])
  else
    match destFile with
    | .pyStr _ =>
      (.ok (), [.openStream "sync:", .filesyncPull deviceFilename,
                .closeStream])
    | _ => (.error .valueError, [])

/-- C10: every truthy non-string `dest_file` — including any writable
file-like object — makes `Pull` raise `ValueError` with an empty operation
trace: no stream is opened and the transport is never touched. -/
theorem pull_rejects_nonstring_dest (f : String) (d : PyVal)
    (ht : pyTruthy d = true) (hs : ∀ s, d ≠ .pyStr s) :
    adbCommandsPull f d = (.error .valueError, []) := by
  cases d with
  | pyNone => simp [pyTruthy] at ht
  | pyStr s => exact absurd rfl (hs s)
  | pyFileLike => rfl
  | pyOther => rfl

/-- Witness for `pull_rejects_nonstring_dest` at a writable file-like
destination. -/
theorem pull_rejects_nonstring_dest_witness :
    pyTruthy .pyFileLike = true ∧
    (∀ s, PyVal.pyFileLike ≠ PyVal.pyStr s) ∧
    adbCommandsPull "/data" .pyFileLike = (.error .valueError, []) :=
  ⟨rfl, fun _ h => PyVal.noConfusion h,
   pull_rejects_nonstring_dest "/data" .pyFileLike rfl
     (fun _ h => PyVal.noConfusion h)⟩

/-- Witness for `pack_header_fields` : a WRTE with args 1, 2 and payload
`[10, 20]`. -/
theorem pack_header_fields_witness :
    (1 : Nat) < 4294967296 ∧ (2 : Nat) < 4294967296 ∧
    ([10, 20] : List Nat).length < 4294967296 ∧
    (adbUnpack (adbMessageInit .wrte 1 2 [10, 20]).pack =
      .ok (cmdWire .wrte, 1, 2, ([10, 20] : List Nat).length,
        ([10, 20] : List Nat).sum % 4294967296) ∧
    decLE ((adbMessageInit .wrte 1 2 [10, 20]).pack.drop 20) =
      cmdWire .wrte ^^^ 0xFFFFFFFF) :=
  ⟨by decide, by decide, by decide,
   pack_header_fields .wrte 1 2 [10, 20] (by decide) (by decide) (by decide)⟩

/-- Witness for `read_checksum_verified_magic_ignored` : a WRTE for the
established stream with payload `[5, 6]` (checksum 11), declared checksum
11 and magic 0. -/
theorem read_checksum_verified_magic_ignored_witness :
    (2 : Nat) < 4294967296 ∧ (1 : Nat) < 4294967296 ∧
    ([5, 6] : List Nat).length < 4294967296 ∧ (11 : Nat) < 4294967296 ∧
    Cmd.wrte ∈ [Cmd.wrte] ∧
    ((0 < ([5, 6] : List Nat).length → calculateChecksum [5, 6] ≠ 11 →
      adbRead [Cmd.wrte] 0
        (packHeader (cmdWire .wrte) 2 1 ([5, 6] : List Nat).length 11 0 ++
          ([5, 6] ++ [])) = .error .invalidChecksum) ∧
    (0 < ([5, 6] : List Nat).length → calculateChecksum [5, 6] = 11 →
      adbRead [Cmd.wrte] 0
        (packHeader (cmdWire .wrte) 2 1 ([5, 6] : List Nat).length 11 0 ++
          ([5, 6] ++ [])) = .ok (.wrte, 2, 1, [5, 6], [])) ∧
    (([5, 6] : List Nat) = [] →
      adbRead [Cmd.wrte] 0
        (packHeader (cmdWire .wrte) 2 1 ([5, 6] : List Nat).length 11 0 ++
          ([5, 6] ++ [])) = .ok (.wrte, 2, 1, [], []))) :=
  ⟨by decide, by decide, by decide, by decide, by decide,
   read_checksum_verified_magic_ignored [Cmd.wrte] 0 .wrte 2 1 11 0 [5, 6] []
     (by decide) (by decide) (by decide) (by decide) (by decide)⟩

/-- Witness for `readUntil_id_validation` : an OKAY carrying remote_id 3
and local_id 5, both foreign to the (1, 2) stream. -/
theorem readUntil_id_validation_witness :
    adbRead [Cmd.okay] 0 (packHeader (cmdWire .okay) 3 5 0 0 0) =
      .ok (.okay, 3, 5, [], []) ∧
    (((5 : Nat) ≠ 0 ∧ (1 : Nat) ≠ 5 →
      readUntil ⟨1, 2⟩ [Cmd.okay] 0 (packHeader (cmdWire .okay) 3 5 0 0 0) =
        .error .interleavedData) ∧
    (¬((5 : Nat) ≠ 0 ∧ (1 : Nat) ≠ 5) → (3 : Nat) ≠ 0 ∧ (2 : Nat) ≠ 3 →
      readUntil ⟨1, 2⟩ [Cmd.okay] 0 (packHeader (cmdWire .okay) 3 5 0 0 0) =
        .error .invalidResponse)) :=
  ⟨rfl, readUntil_id_validation ⟨1, 2⟩ [Cmd.okay] 0 _ .okay 3 5 [] [] rfl⟩

/-- Witness for `wrte_acked_exactly_once` : a WRTE with payload `[9]`
delivered on the (1, 2) stream. -/
theorem wrte_acked_exactly_once_witness :
    readUntil ⟨1, 2⟩ [Cmd.wrte] 0
        (packHeader (cmdWire .wrte) 2 1 1 9 0 ++ [9]) =
      .ok (.wrte, [9], [], [okayMessage ⟨1, 2⟩]) ∧
    [okayMessage (⟨1, 2⟩ : AdbConnection)] =
      if Cmd.wrte = .wrte then [okayMessage ⟨1, 2⟩] else [] :=
  ⟨by rfl, wrte_acked_exactly_once ⟨1, 2⟩ [Cmd.wrte] 0
    (packHeader (cmdWire .wrte) 2 1 1 9 0 ++ [9]) .wrte [9] []
    [okayMessage ⟨1, 2⟩] (by rfl)⟩

/-- Witness for `skipped_message_payload_not_consumed` : a WRTE with a
3-byte payload is skipped while waiting for an OKAY. -/
theorem skipped_message_payload_not_consumed_witness :
    (2 : Nat) < 4294967296 ∧ (1 : Nat) < 4294967296 ∧
    (3 : Nat) < 4294967296 ∧ (6 : Nat) < 4294967296 ∧
    (0 : Nat) < 3 ∧ ([1, 2, 3] : List Nat).length = 3 ∧
    Cmd.wrte ∉ [Cmd.okay] ∧
    adbRead [Cmd.okay] 1
        (packHeader (cmdWire .wrte) 2 1 3 6 0 ++
          ([1, 2, 3] ++ packHeader (cmdWire .okay) 2 1 0 0 0)) =
      adbRead [Cmd.okay] 0
        ([1, 2, 3] ++ packHeader (cmdWire .okay) 2 1 0 0 0) :=
  ⟨by decide, by decide, by decide, by decide, by decide, by decide,
   by decide,
   skipped_message_payload_not_consumed [Cmd.okay] 0 .wrte 2 1 3 6 0 [1, 2, 3]
     (packHeader (cmdWire .okay) 2 1 0 0 0) (by decide) (by decide)
     (by decide) (by decide) (by decide) (by decide) (by decide)⟩

/-- Witness for `send_buffer_bounded` : a SEND, a DATA, a Read and a DONE,
all with small payloads, starting from a fresh connection. -/
theorem send_buffer_bounded_witness :
    (∀ c d sz, FsOp.send c d sz ∈
        ([.send .send [47, 100] 0, .send .data [104, 105] 0, .read,
          .send .done [] 100] : List FsOp) →
      d.length + sendHeaderLen ≤ MAX_ADB_DATA) ∧
    (FileSyncSendState.pending ⟨[], []⟩).length ≤ MAX_ADB_DATA ∧
    (fsRun [.send .send [47, 100] 0, .send .data [104, 105] 0, .read,
        .send .done [] 100] ⟨[], []⟩).pending.length ≤ MAX_ADB_DATA := by
  have hops : ∀ c d sz, FsOp.send c d sz ∈
      ([.send .send [47, 100] 0, .send .data [104, 105] 0, .read,
        .send .done [] 100] : List FsOp) →
      d.length + sendHeaderLen ≤ MAX_ADB_DATA := by
    intro c d sz h
    simp only [List.mem_cons, List.not_mem_nil, or_false] at h
    rcases h with h | h | h | h <;> simp_all [sendHeaderLen, MAX_ADB_DATA]
  exact ⟨hops, by decide,
    send_buffer_bounded _ hops ⟨[], []⟩ (by decide)⟩
